import Mathlib

/-!
Shallow embedding of the `go-rest-api-std` album service: the in-memory
store (`MemoryDatabase` with `GetAlbums`, `GetAlbumByID`, `AddAlbum`), the
HTTP handler (`Server.ServeHTTP` and the per-route handlers), the create
validation block, and the regex path matcher `^/albums/([^/]+)$`.

Go multiple-return methods become Lean functions returning tuples; pointer
receivers become explicit state passing (each store operation returns the
updated `MemoryDatabase` first).  The Go `map[string]Album` is modelled as
an association list; `sort.Slice` with comparator `albums[i].ID <
albums[j].ID` is modelled as a comparison sort by that key.
-/

namespace GoRestApi

/-- `Album` from model.go: id/title/artist strings and an integer price in
cents. -/
structure Album where
  id : String
  title : String
  artist : String
  price : Int
deriving DecidableEq, Repr

/-- The two sentinel errors from errors.go: `ErrDoesNotExist` and
`ErrAlreadyExists`. -/
inductive DBError where
  | doesNotExist
  | alreadyExists
deriving DecidableEq, Repr

/-- `MemoryDatabase`: its `albums map[string]Album` is modelled as an
association list from id to record. -/
structure MemoryDatabase where
  albums : List (String × Album)
deriving DecidableEq, Repr

/-- `NewMemoryDatabase` creates an empty store. -/
def NewMemoryDatabase : MemoryDatabase := ⟨[]⟩

/-- Go string comparison `s < t`, bytewise lexicographic; on valid UTF-8
this is codepoint order, modelled over the codepoint lists. -/
def lexLt : List Char → List Char → Bool
  | _, [] => false
  | [], _ :: _ => true
  | a :: as, b :: bs =>
    if a.toNat < b.toNat then true
    else if b.toNat < a.toNat then false
    else lexLt as bs

/-- Go `s < t` on whole strings. -/
def strLt (s t : String) : Bool := lexLt s.data t.data

/-- Non-strict comparator derived from the less function of the
`sort.Slice` call in `GetAlbums`, `albums[i].ID < albums[j].ID`. -/
def albumLE (a b : Album) : Prop := strLt b.id a.id = false

instance : DecidableRel albumLE := fun a b =>
  inferInstanceAs (Decidable (strLt b.id a.id = false))

theorem lexLt_nil_right (x : List Char) : lexLt x [] = false := by
  cases x <;> rfl

theorem lexLt_asymm :
    ∀ x y : List Char, lexLt x y = true → lexLt y x = false := by
  intro x
  induction x with
  | nil =>
    intro y _
    exact lexLt_nil_right y
  | cons a as ih =>
    intro y h
    cases y with
    | nil => simp [lexLt] at h
    | cons b bs =>
      simp only [lexLt] at h ⊢
      split_ifs at h ⊢ <;> first | rfl | omega | exact ih bs h

theorem lexLt_false_trans :
    ∀ x y z : List Char,
      lexLt y x = false → lexLt z y = false → lexLt z x = false := by
  intro x
  induction x with
  | nil =>
    intro y z _ _
    exact lexLt_nil_right z
  | cons a as ih =>
    intro y z hyx hzy
    cases y with
    | nil => simp [lexLt] at hyx
    | cons b bs =>
      cases z with
      | nil => simp [lexLt] at hzy
      | cons c cs =>
        simp only [lexLt] at hyx hzy ⊢
        split_ifs at hyx hzy ⊢ <;>
          first | rfl | omega | exact ih bs cs hyx hzy

theorem lexLt_eq_of_both_false :
    ∀ x y : List Char, lexLt x y = false → lexLt y x = false → x = y := by
  intro x
  induction x with
  | nil =>
    intro y hxy _
    cases y with
    | nil => rfl
    | cons b bs => simp [lexLt] at hxy
  | cons a as ih =>
    intro y hxy hyx
    cases y with
    | nil => simp [lexLt] at hyx
    | cons b bs =>
      simp only [lexLt] at hxy hyx
      rcases Nat.lt_trichotomy a.toNat b.toNat with h | h | h
      · rw [if_pos h] at hxy
        simp at hxy
      · have h1 : ¬ a.toNat < b.toNat := by omega
        have h2 : ¬ b.toNat < a.toNat := by omega
        rw [if_neg h1, if_neg h2] at hxy
        rw [if_neg h2, if_neg h1] at hyx
        have hab : a = b := Char.ext (UInt32.toNat.inj h)
        exact hab ▸ congrArg (a :: ·) (ih bs hxy hyx)
      · rw [if_pos h] at hyx
        simp at hyx

instance : IsTotal Album albumLE := by
  constructor
  intro a b
  rcases h : strLt b.id a.id with _ | _
  · exact Or.inl h
  · exact Or.inr (lexLt_asymm _ _ h)

instance : IsTrans Album albumLE :=
  ⟨fun _ _ _ h h' => lexLt_false_trans _ _ _ h h'⟩

/-- `MemoryDatabase.GetAlbums`: copy the map values into a slice, sort by
ID, return them with a nil error.  The receiver is returned unchanged. -/
def MemoryDatabase.GetAlbums (d : MemoryDatabase) :
    MemoryDatabase × List Album × Option DBError :=
  (d, List.insertionSort albumLE (d.albums.map Prod.snd), none)

/-- `MemoryDatabase.GetAlbumByID`: map lookup; on a miss return the zero
`Album` together with `ErrDoesNotExist`. -/
def MemoryDatabase.GetAlbumByID (d : MemoryDatabase) (id : String) :
    MemoryDatabase × Album × Option DBError :=
  match d.albums.lookup id with
  | some album => (d, album, none)
  | none => (d, ⟨"", "", "", 0⟩, some .doesNotExist)

/-- `MemoryDatabase.AddAlbum`: fail with `ErrAlreadyExists` when the id is
present, otherwise store the album under its id. -/
def MemoryDatabase.AddAlbum (d : MemoryDatabase) (album : Album) :
    MemoryDatabase × Option DBError :=
  if (d.albums.lookup album.id).isSome then (d, some .alreadyExists)
  else (⟨(album.id, album) :: d.albums⟩, none)

/-- The `validationIssue` struct local to `Server.addAlbum`. -/
structure ValidationIssue where
  error : String
  message : String
deriving DecidableEq, Repr

/-- A value of the `map[string]any` passed as `data` to `jsonError`:
either a field's `validationIssue` or a plain string (the `message` of a
malformed-json error). -/
inductive DataValue where
  | issue (i : ValidationIssue)
  | str (s : String)
deriving DecidableEq, Repr

/-- The JSON value written as a response body: a single album, an album
array, or the `jsonError` envelope `{status, error, data}` (data omitted
when empty). -/
inductive ResponseBody where
  | album (a : Album)
  | albums (l : List Album)
  | error (status : Nat) (error : String) (data : List (String × DataValue))
deriving DecidableEq, Repr

/-- An HTTP response: status code, optional `Allow` header, JSON body. -/
structure Response where
  status : Nat
  allow : Option String
  body : ResponseBody
deriving DecidableEq, Repr

/-- `Server.jsonError`: the structured error envelope, echoing the status
into the body. -/
def jsonErrorResponse (status : Nat) (err : String)
    (data : List (String × DataValue)) : Response :=
  { status := status, allow := none, body := .error status err data }

/-- Outcome of `Server.readJSON` on a POST body: the body read failed
(`io.ReadAll` error), `json.Unmarshal` failed with the given error text,
or an `Album` was decoded. -/
inductive BodyResult where
  | readError (e : String)
  | parseError (e : String)
  | parsed (a : Album)
deriving DecidableEq, Repr

/-- An incoming HTTP request as the handler sees it: method, URL path, and
the (pre-classified) result of reading its body as an `Album`. -/
structure Request where
  method : String
  path : String
  body : BodyResult
deriving DecidableEq, Repr

/-- The validation block of `Server.addAlbum`: collect every field issue
(the Go code builds a `map[string]any`; order here is the textual order of
the four checks). -/
def validateAlbum (album : Album) : List (String × ValidationIssue) :=
  (if album.id = "" then [("id", ⟨"required", ""⟩)] else []) ++
  (if album.title = "" then [("title", ⟨"required", ""⟩)] else []) ++
  (if album.artist = "" then [("artist", ⟨"required", ""⟩)] else []) ++
  (if album.price < 0 ∨ album.price ≥ 100000 then
    [("price", ⟨"out-of-range", "price must be between 0 and $1000"⟩)]
  else [])

/-- `Server.addAlbum`: read the body, validate, then call the store and
map its outcome (409 on duplicate, 500 on other store errors, 201 echoing
the album on success). -/
def Server.addAlbum (db : MemoryDatabase) (body : BodyResult) :
    Response × MemoryDatabase :=
  match body with
  | .readError _ => (jsonErrorResponse 500 "internal" [], db)
  | .parseError e =>
    (jsonErrorResponse 400 "malformed-json" [("message", .str e)], db)
  | .parsed album =>
    let issues := validateAlbum album
    if issues ≠ [] then
      (jsonErrorResponse 400 "validation"
        (issues.map (fun p => (p.1, DataValue.issue p.2))), db)
    else
      match db.AddAlbum album with
      | (db2, some .alreadyExists) =>
        (jsonErrorResponse 409 "already-exists" [], db2)
      | (db2, some _) => (jsonErrorResponse 500 "database" [], db2)
      | (db2, none) =>
        ({ status := 201, allow := none, body := .album album }, db2)

/-- `Server.getAlbums`: 200 with the sorted array, or 500 `database` if
the store errs. -/
def Server.getAlbums (db : MemoryDatabase) : Response × MemoryDatabase :=
  match db.GetAlbums with
  | (db2, _, some _) => (jsonErrorResponse 500 "database" [], db2)
  | (db2, albums, none) =>
    ({ status := 200, allow := none, body := .albums albums }, db2)

/-- `Server.getAlbumByID`: 404 on `ErrDoesNotExist`, 500 on other store
errors, 200 with the album otherwise. -/
def Server.getAlbumByID (db : MemoryDatabase) (id : String) :
    Response × MemoryDatabase :=
  match db.GetAlbumByID id with
  | (db2, _, some .doesNotExist) => (jsonErrorResponse 404 "not-found" [], db2)
  | (db2, _, some _) => (jsonErrorResponse 500 "database" [], db2)
  | (db2, album, none) =>
    ({ status := 200, allow := none, body := .album album }, db2)

/-- The regex `^/albums/([^/]+)$` applied by `match`: the path is
`/albums/` followed by one or more non-slash characters, which are bound
as the id. -/
def reAlbumsIDMatch (path : String) : Option String :=
  match path.data with
  | '/' :: 'a' :: 'l' :: 'b' :: 'u' :: 'm' :: 's' :: '/' :: rest =>
    if rest ≠ [] ∧ rest.all (fun c => c ≠ '/') = true then
      some (String.mk rest)
    else none
  | _ => none

/-- `Server.ServeHTTP`: route on the exact path `/albums` first, then the
`/albums/{id}` pattern, else 404; unsupported methods get 405 with the
corresponding `Allow` header. -/
def Server.ServeHTTP (db : MemoryDatabase) (r : Request) :
    Response × MemoryDatabase :=
  if r.path = "/albums" then
    if r.method = "GET" then Server.getAlbums db
    else if r.method = "POST" then Server.addAlbum db r.body
    else
      ({ jsonErrorResponse 405 "method-not-allowed" [] with
          allow := some "GET, POST" }, db)
  else
    match reAlbumsIDMatch r.path with
    | some id =>
      if r.method = "GET" then Server.getAlbumByID db id
      else
        ({ jsonErrorResponse 405 "method-not-allowed" [] with
            allow := some "GET" }, db)
    | none => (jsonErrorResponse 404 "not-found" [], db)

/-- The first album seeded by main.go, reused as concrete witness data. -/
def albumA1 : Album := ⟨"a1", "9th Symphony", "Beethoven", 795⟩

/-- The second album seeded by main.go. -/
def albumA2 : Album := ⟨"a2", "Hey Jude", "The Beatles", 2000⟩

/-- A store holding the two seeded albums (listed here in reverse id
order, as a Go map imposes no order). -/
def dbSeeded : MemoryDatabase := ⟨[("a2", albumA2), ("a1", albumA1)]⟩

/-- C1: adding an album whose id is not stored succeeds, and getting that
id afterwards returns the very album with a nil error. -/
theorem addAlbum_then_getAlbum (db : MemoryDatabase) (A : Album)
    (h : db.albums.lookup A.id = none) :
    (db.AddAlbum A).2 = none ∧
    ((db.AddAlbum A).1.GetAlbumByID A.id).2.1 = A ∧
    ((db.AddAlbum A).1.GetAlbumByID A.id).2.2 = none := by
  simp [MemoryDatabase.AddAlbum, MemoryDatabase.GetAlbumByID, h, List.lookup]

/-- C1 witness: the theorem instantiated at the empty store and the first
seeded album. -/
theorem addAlbum_then_getAlbum_witness :
    NewMemoryDatabase.albums.lookup albumA1.id = none ∧
    (NewMemoryDatabase.AddAlbum albumA1).2 = none ∧
    ((NewMemoryDatabase.AddAlbum albumA1).1.GetAlbumByID albumA1.id).2.1 =
      albumA1 ∧
    ((NewMemoryDatabase.AddAlbum albumA1).1.GetAlbumByID albumA1.id).2.2 =
      none :=
  ⟨by decide, addAlbum_then_getAlbum NewMemoryDatabase albumA1 (by decide)⟩

/-- C2: adding an album whose id is already stored fails with
`ErrAlreadyExists` and leaves the whole store (hence the record under
that id) unchanged. -/
theorem addAlbum_duplicate (db : MemoryDatabase) (A : Album)
    (h : (db.albums.lookup A.id).isSome = true) :
    db.AddAlbum A = (db, some .alreadyExists) := by
  simp [MemoryDatabase.AddAlbum, h]

/-- C2 witness: re-adding seeded id `a1` (with different contents) fails
and changes nothing. -/
theorem addAlbum_duplicate_witness :
    ((dbSeeded.albums.lookup (Album.mk "a1" "t" "a" 1).id).isSome = true) ∧
    dbSeeded.AddAlbum (Album.mk "a1" "t" "a" 1) =
      (dbSeeded, some .alreadyExists) :=
  ⟨by decide, addAlbum_duplicate dbSeeded (Album.mk "a1" "t" "a" 1) (by decide)⟩

/-- C4: the create validation yields an issue on field `price` exactly
when the price lies outside `[0, 100000)`, and that issue is
`out-of-range` with the fixed message. -/
theorem validateAlbum_price_iff (a : Album) :
    (validateAlbum a).lookup "price" =
      if a.price < 0 ∨ a.price ≥ 100000 then
        some ⟨"out-of-range", "price must be between 0 and $1000"⟩
      else none := by
  unfold validateAlbum
  split_ifs <;> rfl

/-- C9: a POST to `/albums` whose body fails to parse yields 400 with
kind `malformed-json` and `data.message` holding the parse error text,
and the store is returned unchanged (never called). -/
theorem addAlbum_malformed_json (db : MemoryDatabase) (e : String) :
    Server.ServeHTTP db ⟨"POST", "/albums", .parseError e⟩ =
      (jsonErrorResponse 400 "malformed-json" [("message", .str e)], db) := by
  rfl

/-- C10: the read operations return the store unchanged: `GetAlbums` and
`GetAlbumByID` leave the album collection identical to what it was. -/
theorem reads_leave_store_unchanged (db : MemoryDatabase) (id : String) :
    (db.GetAlbums).1 = db ∧ (db.GetAlbumByID id).1 = db := by
  refine ⟨rfl, ?_⟩
  cases h : db.albums.lookup id <;> simp [MemoryDatabase.GetAlbumByID, h]

/-- C5: with any validation issue present, the create handler responds
400 `validation` carrying every collected issue and returns the store
untouched; each failing field contributes its issue to the same list. -/
theorem addAlbum_collects_all_issues (db : MemoryDatabase) (a : Album)
    (h : validateAlbum a ≠ []) :
    Server.addAlbum db (.parsed a) =
      (jsonErrorResponse 400 "validation"
        ((validateAlbum a).map (fun p => (p.1, DataValue.issue p.2))), db) ∧
    (a.id = "" → ("id", ⟨"required", ""⟩) ∈ validateAlbum a) ∧
    (a.title = "" → ("title", ⟨"required", ""⟩) ∈ validateAlbum a) ∧
    (a.artist = "" → ("artist", ⟨"required", ""⟩) ∈ validateAlbum a) ∧
    (a.price < 0 ∨ a.price ≥ 100000 →
      ("price", ⟨"out-of-range", "price must be between 0 and $1000"⟩) ∈
        validateAlbum a) := by
  refine ⟨?_, ?_, ?_, ?_, ?_⟩
  · simp only [Server.addAlbum, if_pos h]
  all_goals intro h'
  all_goals simp [validateAlbum, h', List.mem_append]

/-- C5 witness: a payload with both title and artist empty gets one 400
validation response listing issues for both fields. -/
theorem addAlbum_collects_all_issues_witness :
    validateAlbum ⟨"x", "", "", 50⟩ ≠ [] ∧
    (Server.addAlbum dbSeeded (.parsed ⟨"x", "", "", 50⟩) =
      (jsonErrorResponse 400 "validation"
        ((validateAlbum ⟨"x", "", "", 50⟩).map
          (fun p => (p.1, DataValue.issue p.2))), dbSeeded) ∧
    ("title", ⟨"required", ""⟩) ∈ validateAlbum ⟨"x", "", "", 50⟩ ∧
    ("artist", ⟨"required", ""⟩) ∈ validateAlbum ⟨"x", "", "", 50⟩) := by
  have h := addAlbum_collects_all_issues dbSeeded ⟨"x", "", "", 50⟩ (by decide)
  exact ⟨by decide, h.1, h.2.2.1 rfl, h.2.2.2.1 rfl⟩

/-- The regex matcher accepts `/albums/` followed by any nonempty
slash-free id and binds that id. -/
theorem reAlbumsIDMatch_append (id : String) (h1 : id.data ≠ [])
    (h2 : id.data.all (fun c => c ≠ '/') = true) :
    reAlbumsIDMatch ("/albums/" ++ id) = some id := by
  obtain ⟨d⟩ := id
  show reAlbumsIDMatch ⟨'/' :: 'a' :: 'l' :: 'b' :: 'u' :: 'm' :: 's' ::
    '/' :: d⟩ = some ⟨d⟩
  simp only [reAlbumsIDMatch]
  exact if_pos ⟨h1, h2⟩

/-- A path under `/albums/` is never the exact collection path. -/
theorem append_ne_albums (id : String) : ("/albums/" ++ id) ≠ "/albums" := by
  obtain ⟨d⟩ := id
  intro hEq
  have h := congrArg String.data hEq
  simp [String.data] at h

/-- C6: reading a never-inserted id gives `ErrDoesNotExist`, and a GET of
`/albums/{that id}` answers 404 with the `not-found` envelope (empty
data), store unchanged. -/
theorem getAlbum_missing (db : MemoryDatabase) (id : String) (b : BodyResult)
    (h0 : db.albums.lookup id = none) (h1 : id.data ≠ [])
    (h2 : id.data.all (fun c => c ≠ '/') = true) :
    (db.GetAlbumByID id).2.2 = some .doesNotExist ∧
    Server.ServeHTTP db ⟨"GET", "/albums/" ++ id, b⟩ =
      (jsonErrorResponse 404 "not-found" [], db) := by
  constructor
  · simp [MemoryDatabase.GetAlbumByID, h0]
  · simp only [Server.ServeHTTP]
    rw [if_neg (append_ne_albums id)]
    rw [reAlbumsIDMatch_append id h1 h2]
    simp [Server.getAlbumByID, MemoryDatabase.GetAlbumByID, h0]

/-- C6 witness: GET `/albums/missing` on the seeded store. -/
theorem getAlbum_missing_witness :
    (dbSeeded.albums.lookup "missing" = none ∧ "missing".data ≠ [] ∧
      "missing".data.all (fun c => c ≠ '/') = true) ∧
    (dbSeeded.GetAlbumByID "missing").2.2 = some .doesNotExist ∧
    Server.ServeHTTP dbSeeded ⟨"GET", "/albums/" ++ "missing",
        .parsed albumA1⟩ =
      (jsonErrorResponse 404 "not-found" [], dbSeeded) :=
  ⟨⟨by decide, by decide, by decide⟩,
    getAlbum_missing dbSeeded "missing" (.parsed albumA1)
      (by decide) (by decide) (by decide)⟩

/-- C7: routing classifies each request into exactly one row: on
`/albums` a method other than GET/POST gets 405 with `Allow: GET, POST`;
on a matched `/albums/{id}` a non-GET gets 405 with `Allow: GET`; any
unmatched path gets 404; and the pattern rejects `/albums` itself, an
empty id, and an id containing a slash. -/
theorem routing_classification :
    (∀ (db : MemoryDatabase) (r : Request), r.path = "/albums" →
      r.method ≠ "GET" → r.method ≠ "POST" →
      Server.ServeHTTP db r =
        ({ jsonErrorResponse 405 "method-not-allowed" [] with
            allow := some "GET, POST" }, db)) ∧
    (∀ (db : MemoryDatabase) (r : Request) (id : String),
      reAlbumsIDMatch r.path = some id → r.method ≠ "GET" →
      Server.ServeHTTP db r =
        ({ jsonErrorResponse 405 "method-not-allowed" [] with
            allow := some "GET" }, db)) ∧
    (∀ (db : MemoryDatabase) (r : Request), r.path ≠ "/albums" →
      reAlbumsIDMatch r.path = none →
      Server.ServeHTTP db r = (jsonErrorResponse 404 "not-found" [], db)) ∧
    reAlbumsIDMatch "/albums" = none ∧
    reAlbumsIDMatch "/albums/" = none ∧
    reAlbumsIDMatch "/albums/a/b" = none := by
  refine ⟨?_, ?_, ?_, by decide, by decide, by decide⟩
  · intro db r hp hg hpo
    simp [Server.ServeHTTP, hp, hg, hpo]
  · intro db r id hm hg
    have hp : r.path ≠ "/albums" := by
      intro hp
      rw [hp] at hm
      rw [show reAlbumsIDMatch "/albums" = none from by decide] at hm
      exact Option.noConfusion hm
    simp [Server.ServeHTTP, hp, hm, hg]
  · intro db r hp hm
    simp [Server.ServeHTTP, hp, hm]

/-- C7 witness: DELETE `/albums`, PUT `/albums/a1`, and GET `/nope` on
the seeded store. -/
theorem routing_classification_witness :
    Server.ServeHTTP dbSeeded ⟨"DELETE", "/albums", .parsed albumA1⟩ =
      ({ jsonErrorResponse 405 "method-not-allowed" [] with
          allow := some "GET, POST" }, dbSeeded) ∧
    Server.ServeHTTP dbSeeded ⟨"PUT", "/albums/a1", .parsed albumA1⟩ =
      ({ jsonErrorResponse 405 "method-not-allowed" [] with
          allow := some "GET" }, dbSeeded) ∧
    Server.ServeHTTP dbSeeded ⟨"GET", "/nope", .parsed albumA1⟩ =
      (jsonErrorResponse 404 "not-found" [], dbSeeded) :=
  ⟨routing_classification.1 dbSeeded ⟨"DELETE", "/albums", .parsed albumA1⟩
      rfl (by decide) (by decide),
   routing_classification.2.1 dbSeeded ⟨"PUT", "/albums/a1", .parsed albumA1⟩
      "a1" (by decide) (by decide),
   routing_classification.2.2.1 dbSeeded ⟨"GET", "/nope", .parsed albumA1⟩
      (by decide) (by decide)⟩

/-- C8: a valid, fresh create via POST `/albums` answers 201 echoing the
submitted album, and that album is now the record stored under its id. -/
theorem create_success (db : MemoryDatabase) (a : Album)
    (hv : validateAlbum a = []) (h0 : db.albums.lookup a.id = none) :
    (Server.ServeHTTP db ⟨"POST", "/albums", .parsed a⟩).1 =
      ⟨201, none, .album a⟩ ∧
    ((Server.ServeHTTP db ⟨"POST", "/albums", .parsed a⟩).2.GetAlbumByID
        a.id).2.1 = a ∧
    ((Server.ServeHTTP db ⟨"POST", "/albums", .parsed a⟩).2.GetAlbumByID
        a.id).2.2 = none := by
  simp [Server.ServeHTTP, Server.addAlbum, hv, MemoryDatabase.AddAlbum, h0,
    MemoryDatabase.GetAlbumByID, List.lookup]

/-- C8 witness: posting the first seeded album to an empty store. -/
theorem create_success_witness :
    (validateAlbum albumA1 = [] ∧
      NewMemoryDatabase.albums.lookup albumA1.id = none) ∧
    (Server.ServeHTTP NewMemoryDatabase
        ⟨"POST", "/albums", .parsed albumA1⟩).1 =
      ⟨201, none, .album albumA1⟩ ∧
    ((Server.ServeHTTP NewMemoryDatabase
        ⟨"POST", "/albums", .parsed albumA1⟩).2.GetAlbumByID
        albumA1.id).2.1 = albumA1 ∧
    ((Server.ServeHTTP NewMemoryDatabase
        ⟨"POST", "/albums", .parsed albumA1⟩).2.GetAlbumByID
        albumA1.id).2.2 = none :=
  ⟨⟨by decide, by decide⟩,
    create_success NewMemoryDatabase albumA1 (by decide) (by decide)⟩

/-- C3: listing never fails, and returns a permutation of the stored
records that is strictly ascending by id in lexicographic order (so the
result is independent of insertion order). -/
theorem listAlbums_sorted (db : MemoryDatabase)
    (h : ((db.albums.map Prod.snd).map Album.id).Nodup) :
    (db.GetAlbums).2.2 = none ∧
    List.Perm (db.albums.map Prod.snd) (db.GetAlbums).2.1 ∧
    List.Pairwise (fun a b => strLt a.id b.id = true) (db.GetAlbums).2.1 := by
  refine ⟨rfl, ?_, ?_⟩
  · exact (List.perm_insertionSort albumLE _).symm
  · have hp : List.Perm (List.insertionSort albumLE (db.albums.map Prod.snd))
        (db.albums.map Prod.snd) := List.perm_insertionSort _ _
    have hs : List.Pairwise albumLE
        (List.insertionSort albumLE (db.albums.map Prod.snd)) :=
      List.sorted_insertionSort albumLE _
    have hnd : ((List.insertionSort albumLE
        (db.albums.map Prod.snd)).map Album.id).Nodup :=
      ((hp.map Album.id).nodup_iff).mpr h
    have hne : List.Pairwise (fun a b : Album => a.id ≠ b.id)
        (List.insertionSort albumLE (db.albums.map Prod.snd)) := by
      rw [List.Nodup, List.pairwise_map] at hnd
      exact hnd
    show List.Pairwise (fun a b => strLt a.id b.id = true)
      (List.insertionSort albumLE (db.albums.map Prod.snd))
    refine (hs.and hne).imp ?_
    intro a b hab
    rcases hst : strLt a.id b.id with _ | _
    · exact absurd (String.ext (lexLt_eq_of_both_false _ _ hst hab.1)) hab.2
    · rfl

/-- C3 witness: the seeded store, whose map iteration order here is the
reverse of the sorted order. -/
theorem listAlbums_sorted_witness :
    ((dbSeeded.albums.map Prod.snd).map Album.id).Nodup ∧
    (dbSeeded.GetAlbums).2.2 = none ∧
    List.Perm (dbSeeded.albums.map Prod.snd) (dbSeeded.GetAlbums).2.1 ∧
    List.Pairwise (fun a b => strLt a.id b.id = true)
      (dbSeeded.GetAlbums).2.1 :=
  ⟨by decide, listAlbums_sorted dbSeeded (by decide)⟩

end GoRestApi
